import Mathlib

/-!
Verification development for the SYTC mmWave-radar frame decoder.

Shallow embedding of `MircoParser` from `src/demo.py` together with the
pydantic data models from `src/models.py`.

Modelling choices:

* The serial byte source is modelled as a finite trace of single-byte
  polls.  Each poll either delivers one byte (`data = some b`) or delivers
  nothing (`data = none`); `now` is the wall-clock value observed right
  after the poll returns (`time.time()` in the source).  `ser.read(n)`
  with `n ≥ 1` consumes one poll and yields its byte (or nothing); this is
  a legal behaviour of the underlying serial transport, which may return
  any number of bytes up to `n`, one at a time in particular.
* Machine time is a natural number; the source's check
  `(time.time() - start) > timeout` becomes `timeout < now - start`
  (truncated subtraction agrees with the source for monotone clocks).
* Functions return `Option`: `none` means the execution is not determined
  by the finite trace (the code would keep polling past its end);
  `some` carries the value the Python code produces.
* A pydantic model construction (`MircoHead(...)`, `MircoBody(...)`,
  `MircoCheck(...)`) validates its field constraints at construction time
  and raises `ValidationError` on violation.  This is embedded by
  validating constructors returning `Except PyError _`; a raised
  exception propagating out of `parse_frame_from_serial` is the
  `Outcome.error` result, which is distinct from the `return None` paths
  (`Outcome.noneRet`).
-/

/-- One poll of the serial source: `data = some b` delivers the byte `b`,
`data = none` delivers nothing; `now` is the clock right after the poll. -/
structure Poll where
  data : Option Nat
  now : Nat
deriving DecidableEq

/-- A finite trace of polls: everything the serial port hands back, in order. -/
abbrev Trace := List Poll

/-- `MircoParser.START_SEQ = bytes([0x53, 0x59, 0x54, 0x43])`. -/
def START_SEQ : List Nat := [0x53, 0x59, 0x54, 0x43]

/-- `MircoParser.BODY_SIZE = 46`. -/
def BODY_SIZE : Nat := 46

/-- A pydantic `ValidationError` raised by a model constructor. -/
inductive PyError where
  | validationError
deriving DecidableEq

/-- Pydantic model `MircoHead` (src/models.py). -/
structure MircoHead where
  start_signal : List Nat
  data_length : Nat
  mode : Nat
  time : List Nat
  num_TLV : Nat
  work_con : Nat
  reserve : List Nat
deriving DecidableEq

/-- Constructing `MircoHead(...)`: pydantic validates every `Field`
constraint of src/models.py (`start_signal` length 4, `data_length`,
`mode`, `num_TLV` in `0..0xFF`, `time` length 2, `work_con` in `1..3`,
`reserve` length 2) and raises on violation. -/
def MircoHead.make (start_signal : List Nat) (data_length mode : Nat)
    (time : List Nat) (num_TLV work_con : Nat) (reserve : List Nat) :
    Except PyError MircoHead :=
  if start_signal.length = 4 ∧ data_length ≤ 0xFF ∧ mode ≤ 0xFF ∧
      time.length = 2 ∧ num_TLV ≤ 0xFF ∧ 1 ≤ work_con ∧ work_con ≤ 3 ∧
      reserve.length = 2 then
    .ok ⟨start_signal, data_length, mode, time, num_TLV, work_con, reserve⟩
  else
    .error .validationError

/-- Pydantic model `MircoBody` (src/models.py); `target_azimuth` is a
signed integer. -/
structure MircoBody where
  tlv_signal : Nat
  target_distance : Nat
  target_azimuth : Int
  current_status : Nat
  respiration_value : Nat
  heart_rate_value : Nat
  respiration_curve : List Nat
  heart_rate_curve : List Nat
deriving DecidableEq

/-- Constructing `MircoBody(...)`: pydantic validates `tlv_signal ∈ 0..2`,
`target_distance ∈ 0..256`, `target_azimuth ∈ -127..128`,
`current_status ∈ {1, 2}` (the `Literal` annotation), and that both curves
have length exactly 20; it raises `ValidationError` on violation.
`respiration_value` and `heart_rate_value` carry no constraint. -/
def MircoBody.make (tlv_signal target_distance : Nat) (target_azimuth : Int)
    (current_status respiration_value heart_rate_value : Nat)
    (respiration_curve heart_rate_curve : List Nat) :
    Except PyError MircoBody :=
  if tlv_signal ≤ 2 ∧ target_distance ≤ 256 ∧
      -127 ≤ target_azimuth ∧ target_azimuth ≤ 128 ∧
      (current_status = 1 ∨ current_status = 2) ∧
      respiration_curve.length = 20 ∧ heart_rate_curve.length = 20 then
    .ok ⟨tlv_signal, target_distance, target_azimuth, current_status,
      respiration_value, heart_rate_value, respiration_curve, heart_rate_curve⟩
  else
    .error .validationError

/-- Pydantic model `MircoCheck` (src/models.py). -/
structure MircoCheck where
  crc : List Nat
  zw : List Nat
deriving DecidableEq

/-- Constructing `MircoCheck(...)`: pydantic validates that `crc` and `zw`
have length 2; the content of `zw` is *not* validated (the `0xEE 0xEE`
terminator is only a default, not a constraint). -/
def MircoCheck.make (crc zw : List Nat) : Except PyError MircoCheck :=
  if crc.length = 2 ∧ zw.length = 2 then
    .ok ⟨crc, zw⟩
  else
    .error .validationError

/-- Pydantic model `MircoData` (src/models.py): no field constraints. -/
structure MircoData where
  header : MircoHead
  bodies : List MircoBody
  check : MircoCheck
deriving DecidableEq

/-- The dict of parsed header fields that `parse_frame_from_serial`
returns alongside the `MircoData` (src/demo.py lines 154-161). -/
structure HeaderInfo where
  data_length : Nat
  mode : Nat
  time_minutes : Nat
  num_targets : Nat
  work_status : Nat
  reserve : List Nat
deriving DecidableEq

/-- What one call of `parse_frame_from_serial` does, observably:
either it returns the pair `(data, header_dict)` (`frame`), or it
executes one of its `return None` statements (`noneRet`), or a pydantic
`ValidationError` escapes it (`error`). -/
inductive Outcome where
  | frame (data : MircoData) (info : HeaderInfo)
  | noneRet
  | error (e : PyError)
deriving DecidableEq

/-- Python negative slice `l[-a:-b]` for `b < a ≤ l.length` (the only way
the source uses it: `chunk[-44:-24]` and `chunk[-24:-4]` on a 46-byte
chunk). -/
def sliceNeg (l : List Nat) (a b : Nat) : List Nat :=
  (l.drop (l.length - a)).take ((l.length - b) - (l.length - a))

/-- The break condition of the `read_exact` loop (src/demo.py line 62):
`timeout is not None and (time.time() - start) > timeout`. -/
def deadline_passed (timeout : Option Nat) (start now : Nat) : Bool :=
  match timeout with
  | some tmo => decide (tmo < now - start)
  | none => false

/-- The accumulation loop of `MircoParser.read_exact` (src/demo.py lines
54-65): while fewer than `size` bytes are buffered, poll the port; a
delivered byte is appended to the buffer; an empty poll breaks out of the
loop when the deadline has already elapsed (`(time.time() - start) >
timeout`, checked only when `timeout is not None`) and otherwise just
retries.  Returns the collected bytes, the rest of the trace and the
clock. -/
def read_exact_loop (size : Nat) (timeout : Option Nat) (start : Nat) :
    List Nat → Trace → Nat → Option (List Nat × Trace × Nat)
  | buf, [], clk =>
    if buf.length < size then none else some (buf, [], clk)
  | buf, p :: rest, clk =>
    if buf.length < size then
      match p.data with
      | some b => read_exact_loop size timeout start (buf ++ [b]) rest p.now
      | none =>
        if deadline_passed timeout start p.now then some (buf, rest, p.now)
        else read_exact_loop size timeout start buf rest p.now
    else
      some (buf, p :: rest, clk)

/-- `MircoParser.read_exact(ser, size, timeout)`: `start = time.time()` is
the clock at entry (`clk`). -/
def read_exact (size : Nat) (timeout : Option Nat) (tr : Trace) (clk : Nat) :
    Option (List Nat × Trace × Nat) :=
  read_exact_loop size timeout clk [] tr clk

/-- The sliding-window update of `MircoParser.find_start` (src/demo.py
lines 78-80): append the byte just read (`window += b`) and, when the
window has grown past the marker length, drop its oldest byte
(`window.pop(0)`). -/
def push_window (window : List Nat) (b : Nat) : List Nat :=
  if START_SEQ.length < (window ++ [b]).length then (window ++ [b]).drop 1
  else window ++ [b]

/-- The scanning loop of `MircoParser.find_start` (src/demo.py lines
70-82): read one byte at a time; an empty read returns `False` once the
deadline has elapsed; a delivered byte is pushed into the sliding window
(trimmed to the marker length), and a window equal to `START_SEQ` returns
`True`. -/
def find_start_loop (timeout start_time : Nat) :
    List Nat → Trace → Option (Bool × Trace × Nat)
  | _, [] => none
  | window, p :: rest =>
    match p.data with
    | none =>
      if timeout < p.now - start_time then some (false, rest, p.now)
      else find_start_loop timeout start_time window rest
    | some b =>
      if push_window window b = START_SEQ then some (true, rest, p.now)
      else find_start_loop timeout start_time (push_window window b) rest

/-- `MircoParser.find_start(ser, timeout)`: starts with an empty window and
`start_time = time.time()` (the clock at entry). -/
def find_start (timeout : Nat) (tr : Trace) (clk : Nat) :
    Option (Bool × Trace × Nat) :=
  find_start_loop timeout clk [] tr

/-- The body of the target-record loop (src/demo.py lines 113-131): read
the six leading scalar bytes of the 46-byte chunk, slice the curves as
`chunk[-44:-24]` and `chunk[-24:-4]`, normalize `tlv_signal` (wire 0
becomes 1) and `target_azimuth` (wire bytes above 127 have 256
subtracted), and construct `MircoBody`, which validates. -/
def decodeBody (chunk : List Nat) : Except PyError MircoBody :=
  let tlv_signal := chunk.getD 0 0
  let target_distance := chunk.getD 1 0
  let target_azimuth := chunk.getD 2 0
  let current_status := chunk.getD 3 0
  let respiration_value := chunk.getD 4 0
  let heart_rate_value := chunk.getD 5 0
  let respiration_curve := sliceNeg chunk 44 24
  let heart_rate_curve := sliceNeg chunk 24 4
  MircoBody.make (if tlv_signal = 0 then 1 else tlv_signal) target_distance
    (if target_azimuth ≤ 127 then (target_azimuth : Int)
     else (target_azimuth : Int) - 256)
    current_status respiration_value heart_rate_value
    respiration_curve heart_rate_curve

/-- Result of the `for i in range(num_TLV)` loop of
`parse_frame_from_serial` (src/demo.py lines 107-133): `retNone` is the
`return None` taken when a chunk is short, `raised` is a pydantic
`ValidationError` escaping a `MircoBody(...)` construction, `done` carries
the accumulated list of bodies. -/
inductive BodiesResult where
  | retNone
  | raised (e : PyError)
  | done (bodies : List MircoBody)
deriving DecidableEq

/-- The `for i in range(num_TLV)` loop itself, iterating `n` times with
`offset` advancing by `BODY_SIZE`, slicing
`chunk = bodies_bytes[offset : offset + BODY_SIZE]` each round. -/
def decodeBodies (bodies_bytes : List Nat) : Nat → Nat → BodiesResult
  | 0, _ => .done []
  | n + 1, offset =>
    let chunk := (bodies_bytes.drop offset).take BODY_SIZE
    if chunk.length < BODY_SIZE then .retNone
    else
      match decodeBody chunk with
      | .error e => .raised e
      | .ok body =>
        match decodeBodies bodies_bytes n (offset + BODY_SIZE) with
        | .done l => .done (body :: l)
        | r => r

/-- `MircoParser.parse_frame_from_serial(ser, timeout)` (src/demo.py lines
84-161): find the marker, read the 8 remaining header bytes, read
`num_TLV * BODY_SIZE` body bytes, decode the bodies, read the 4 check
bytes, then construct `MircoHead`, `MircoCheck` and `MircoData` and return
the pair `(data, header_dict)`.  All list indexing below happens under the
corresponding length guard of the source, so `getD _ 0` equals the Python
indexing. -/
def parse_frame_from_serial (timeout : Nat) (tr : Trace) (clk : Nat) :
    Option Outcome :=
  match find_start timeout tr clk with
  | none => none
  | some (false, _, _) => some .noneRet
  | some (true, tr1, clk1) =>
    match read_exact (1 + 1 + 2 + 1 + 1 + 2) (some timeout) tr1 clk1 with
    | none => none
    | some (header_remain, tr2, clk2) =>
      if header_remain.length < 8 then some .noneRet
      else
        let data_length := header_remain.getD 0 0
        let mode := header_remain.getD 1 0
        let time_field := (header_remain.drop 2).take 2
        let num_TLV := header_remain.getD 4 0
        let work_con := header_remain.getD 5 0
        let reserve := (header_remain.drop 6).take 2
        let expected_bodies_bytes := num_TLV * BODY_SIZE
        match read_exact expected_bodies_bytes (some timeout) tr2 clk2 with
        | none => none
        | some (bodies_bytes, tr3, clk3) =>
          if bodies_bytes.length < expected_bodies_bytes then some .noneRet
          else
            match decodeBodies bodies_bytes num_TLV 0 with
            | .retNone => some .noneRet
            | .raised e => some (.error e)
            | .done bodies =>
              match read_exact 4 (some timeout) tr3 clk3 with
              | none => none
              | some (check_bytes, _, _) =>
                if check_bytes.length < 4 then some .noneRet
                else
                  let crc := [check_bytes.getD 0 0, check_bytes.getD 1 0]
                  let zw := [check_bytes.getD 2 0, check_bytes.getD 3 0]
                  match MircoHead.make START_SEQ data_length mode time_field
                      num_TLV work_con reserve with
                  | .error e => some (.error e)
                  | .ok header =>
                    match MircoCheck.make crc zw with
                    | .error e => some (.error e)
                    | .ok check =>
                      some (.frame ⟨header, bodies, check⟩
                        ⟨data_length, mode,
                          time_field.getD 0 0 + (time_field.getD 1 0) <<< 8,
                          num_TLV, work_con, reserve⟩)

/-- A trace segment that delivers the bytes `bs` one per poll, each poll
observed at clock `t`. -/
def bytesPolls (bs : List Nat) (t : Nat) : Trace :=
  bs.map fun b => { data := some b, now := t }

/-- Every byte a trace delivers is an octet (the serial port hands back
bytes, so every delivered value is at most `0xFF`). -/
def ByteTrace (tr : Trace) : Prop :=
  ∀ p ∈ tr, p.data.getD 0 ≤ 0xFF

/-- The body the parser decodes from `demoRecord tlvb azb 1` when the
record validates: wire tlv `0` normalizes to `1`, wire azimuth bytes above
127 have 256 subtracted, and the curves are record bytes 2..21 and 22..41
respectively. -/
def demoBody (tlvb azb : Nat) : MircoBody :=
  { tlv_signal := if tlvb = 0 then 1 else tlvb,
    target_distance := 10,
    target_azimuth := if azb ≤ 127 then (azb : Int) else (azb : Int) - 256,
    current_status := 1,
    respiration_value := 70,
    heart_rate_value := 75,
    respiration_curve := [azb, 1, 70, 75,
      0, 0, 0, 0, 0, 0, 0, 0, 0, 0, 0, 0, 0, 0, 0, 0],
    heart_rate_curve := [0, 0, 0, 0, 0, 0, 0, 0, 0, 0,
      0, 0, 0, 0, 0, 0, 0, 0, 0, 0] }

/-! ### Concrete frames used by the claims

The spec's concrete scenario (section 8): header block
`2E 01 00 00 01 01 00 00`, one 46-byte record whose six leading bytes are
`tlv, 10, az, status, 70, 75` with all remaining record bytes zero, and a
footer `AB CD z1 z2`.  The record's `tlv`, azimuth and status bytes and
the footer's terminator bytes are left as parameters so the same frame
family serves several claims. -/

/-- The 8 header bytes following the marker in the concrete scenario:
`data_length = 0x2E = 46`, `mode = 1`, `time = 00 00`, `num_TLV = 1`,
`work_con = 1`, `reserve = 00 00`. -/
def demoHeaderBytes : List Nat := [0x2E, 1, 0, 0, 1, 1, 0, 0]

/-- A 46-byte target record: six scalar bytes then forty zero bytes. -/
def demoRecord (tlvb azb statusb : Nat) : List Nat :=
  [tlvb, 10, azb, statusb, 70, 75,
   0, 0, 0, 0, 0, 0, 0, 0, 0, 0, 0, 0, 0, 0, 0, 0, 0, 0, 0, 0,
   0, 0, 0, 0, 0, 0, 0, 0, 0, 0, 0, 0, 0, 0, 0, 0, 0, 0, 0, 0]

/-- The whole wire frame of the concrete scenario. -/
def demoBytes (tlvb azb statusb z1 z2 : Nat) : List Nat :=
  START_SEQ ++ demoHeaderBytes ++ demoRecord tlvb azb statusb ++
    [0xAB, 0xCD, z1, z2]

/-- The header the parser builds from `demoHeaderBytes`. -/
def demoHead : MircoHead :=
  { start_signal := START_SEQ, data_length := 46, mode := 1,
    time := [0, 0], num_TLV := 1, work_con := 1, reserve := [0, 0] }

/-- The header dict the parser returns for `demoHeaderBytes`. -/
def demoInfo : HeaderInfo :=
  { data_length := 46, mode := 1, time_minutes := 0, num_targets := 1,
    work_status := 1, reserve := [0, 0] }

/-- A one-target frame with the demo header and footer `AB CD z1 z2`. -/
def demoFrame (b : MircoBody) (z1 z2 : Nat) : MircoData :=
  { header := demoHead, bodies := [b], check := { crc := [0xAB, 0xCD], zw := [z1, z2] } }

/-- The body the parser decodes from `demoRecord 0 200 1`: wire tlv `0`
normalizes to `1`, wire azimuth `200` to `-56`; the respiration curve is
record bytes 2..21 (so it starts with the azimuth, status, respiration
and heart-rate bytes `200, 1, 70, 75`), the heart-rate curve is record
bytes 22..41 (all zero). -/
def c1Body : MircoBody :=
  { tlv_signal := 1, target_distance := 10, target_azimuth := -56,
    current_status := 1, respiration_value := 70, heart_rate_value := 75,
    respiration_curve := [200, 1, 70, 75,
      0, 0, 0, 0, 0, 0, 0, 0, 0, 0, 0, 0, 0, 0, 0, 0],
    heart_rate_curve := [0, 0, 0, 0, 0, 0, 0, 0, 0, 0,
      0, 0, 0, 0, 0, 0, 0, 0, 0, 0] }

/-- The wire bytes of a zero-target frame (`num_TLV = 0`): header
`00 01 00 00 00 01 00 00`, no record, footer `AB CD EE EE`. -/
def emptyFrameBytes : List Nat :=
  START_SEQ ++ [0, 1, 0, 0, 0, 1, 0, 0] ++ [0xAB, 0xCD, 0xEE, 0xEE]

/-- The frame decoded from `emptyFrameBytes`. -/
def emptyFrame : MircoData := {
  header := {
    start_signal := START_SEQ,
    data_length := 0,
    mode := 1,
    time := [0, 0],
    num_TLV := 0,
    work_con := 1,
    reserve := [0, 0] },
  bodies := [],
  check := { crc := [0xAB, 0xCD], zw := [0xEE, 0xEE] } }

/-- The header dict decoded from `emptyFrameBytes`. -/
def emptyInfo : HeaderInfo :=
  { data_length := 0, mode := 1, time_minutes := 0, num_targets := 0,
    work_status := 1, reserve := [0, 0] }

/-- A complete one-target frame whose header `work_con` byte is `w`:
used to show that header construction itself can reject a frame. -/
def workConBytes (w : Nat) : List Nat :=
  START_SEQ ++ [0x2E, 1, 0, 0, 1, w, 0, 0] ++ demoRecord 0 200 1 ++
    [0xAB, 0xCD, 0xEE, 0xEE]

/-- Equality of record-decode results is decidable (used to evaluate the
decoder on concrete records). -/
instance : DecidableEq (Except PyError MircoBody) := fun a b =>
  match a, b with
  | .ok x, .ok y =>
    if h : x = y then isTrue (by rw [h]) else isFalse (by simp [h])
  | .error x, .error y => isTrue (by cases x; cases y; rfl)
  | .ok _, .error _ => isFalse (by simp)
  | .error _, .ok _ => isFalse (by simp)

instance byteTraceDecidable (tr : Trace) : Decidable (ByteTrace tr) :=
  decidable_of_iff (∀ p ∈ tr, p.data.getD 0 ≤ 0xFF) Iff.rfl

/-! ### General lemmas about the reading primitives -/

theorem bytesPolls_append (a b : List Nat) (t : Nat) :
    bytesPolls (a ++ b) t = bytesPolls a t ++ bytesPolls b t := by
  simp [bytesPolls]

theorem byteTrace_of_append (pre tr : Trace) (h : ByteTrace (pre ++ tr)) :
    ByteTrace tr := by
  intro p hp
  exact h p (List.mem_append_right pre hp)

/-- Any successful return of the `read_exact` loop: the collected bytes all
come from the initial buffer or from polls of the trace, the returned
trace is a suffix of the input trace, and the buffer never grows past
`size` once below it. -/
theorem read_exact_loop_spec (size : Nat) (timeout : Option Nat) (start : Nat)
    (tr : Trace) :
    ∀ buf clk bs tr2 clk2,
      read_exact_loop size timeout start buf tr clk = some (bs, tr2, clk2) →
      (∀ x ∈ bs, x ∈ buf ∨ ∃ p ∈ tr, p.data = some x) ∧
      (∃ pre, tr = pre ++ tr2) ∧ bs.length ≤ max buf.length size := by
  induction tr with
  | nil =>
    intro buf clk bs tr2 clk2 h
    rw [read_exact_loop] at h
    split at h
    · exact absurd h (by simp)
    · simp only [Option.some.injEq, Prod.mk.injEq] at h
      obtain ⟨rfl, rfl, rfl⟩ := h
      refine ⟨fun x hx => Or.inl hx, ⟨[], rfl⟩, le_max_left _ _⟩
  | cons p rest ih =>
    intro buf clk bs tr2 clk2 h
    rw [read_exact_loop] at h
    split at h
    · rename_i hlt
      split at h
      · rename_i b hb
        obtain ⟨h1, ⟨pre, hpre⟩, h3⟩ := ih _ _ _ _ _ h
        refine ⟨?_, ⟨p :: pre, by rw [hpre, List.cons_append]⟩, ?_⟩
        · intro x hx
          rcases h1 x hx with hx1 | ⟨q, hq, hqd⟩
          · rcases List.mem_append.1 hx1 with hx2 | hx2
            · exact Or.inl hx2
            · simp only [List.mem_singleton] at hx2
              exact Or.inr ⟨p, List.mem_cons_self _ _, by rw [hx2, hb]⟩
          · exact Or.inr ⟨q, List.mem_cons_of_mem _ hq, hqd⟩
        · refine le_trans h3 ?_
          simp only [List.length_append, List.length_singleton]
          omega
      · rename_i hb
        split at h
        · simp only [Option.some.injEq, Prod.mk.injEq] at h
          obtain ⟨rfl, rfl, rfl⟩ := h
          exact ⟨fun x hx => Or.inl hx, ⟨[p], rfl⟩, le_max_left _ _⟩
        · obtain ⟨h1, ⟨pre, hpre⟩, h3⟩ := ih _ _ _ _ _ h
          refine ⟨?_, ⟨p :: pre, by rw [hpre, List.cons_append]⟩, h3⟩
          intro x hx
          rcases h1 x hx with hx1 | ⟨q, hq, hqd⟩
          · exact Or.inl hx1
          · exact Or.inr ⟨q, List.mem_cons_of_mem _ hq, hqd⟩
    · simp only [Option.some.injEq, Prod.mk.injEq] at h
      obtain ⟨rfl, rfl, rfl⟩ := h
      exact ⟨fun x hx => Or.inl hx, ⟨[], rfl⟩, le_max_left _ _⟩

/-- `read_exact` never returns more than `size` bytes, its bytes come from
the trace, and it leaves a suffix of the trace. -/
theorem read_exact_spec (size : Nat) (timeout : Option Nat) (tr : Trace)
    (clk : Nat) (bs : List Nat) (tr2 : Trace) (clk2 : Nat)
    (h : read_exact size timeout tr clk = some (bs, tr2, clk2)) :
    (∀ x ∈ bs, ∃ p ∈ tr, p.data = some x) ∧
    (∃ pre, tr = pre ++ tr2) ∧ bs.length ≤ size := by
  obtain ⟨h1, h2, h3⟩ := read_exact_loop_spec size timeout clk tr [] clk bs tr2 clk2 h
  refine ⟨fun x hx => ?_, h2, by simpa using h3⟩
  rcases h1 x hx with hx1 | hx1
  · simp at hx1
  · exact hx1

/-- Any successful return of the `find_start` loop leaves a suffix of the
input trace. -/
theorem find_start_loop_suffix (timeout start : Nat) (tr : Trace) :
    ∀ w r tr2 clk2,
      find_start_loop timeout start w tr = some (r, tr2, clk2) →
      ∃ pre, tr = pre ++ tr2 := by
  induction tr with
  | nil => intro w r tr2 clk2 h; exact absurd h (by rw [find_start_loop]; simp)
  | cons p rest ih =>
    intro w r tr2 clk2 h
    rw [find_start_loop] at h
    split at h
    · split at h
      · simp only [Option.some.injEq, Prod.mk.injEq] at h
        obtain ⟨rfl, rfl, rfl⟩ := h
        exact ⟨[p], rfl⟩
      · obtain ⟨pre, hpre⟩ := ih _ _ _ _ h
        exact ⟨p :: pre, by rw [hpre, List.cons_append]⟩
    · split at h
      · simp only [Option.some.injEq, Prod.mk.injEq] at h
        obtain ⟨rfl, rfl, rfl⟩ := h
        exact ⟨[p], rfl⟩
      · obtain ⟨pre, hpre⟩ := ih _ _ _ _ h
        exact ⟨p :: pre, by rw [hpre, List.cons_append]⟩

/-- When the buffer already holds enough bytes, the `read_exact` loop exits
immediately with the trace untouched. -/
theorem read_exact_loop_enough (size : Nat) (timeout : Option Nat)
    (start : Nat) (buf : List Nat) (tr : Trace) (clk : Nat)
    (h : ¬ buf.length < size) :
    read_exact_loop size timeout start buf tr clk = some (buf, tr, clk) := by
  cases tr with
  | nil => rw [read_exact_loop, if_neg h]
  | cons p rest => rw [read_exact_loop, if_neg h]

/-- Running the `read_exact` loop against a trace that starts by delivering
the bytes `bs` (all polls at clock `t`): when `bs` can fill the buffer up
to `size`, the loop consumes exactly the bytes it needs. -/
theorem read_exact_loop_bytesPolls (size : Nat) (timeout : Option Nat)
    (start t : Nat) (rest : Trace) :
    ∀ (bs buf : List Nat), size ≤ buf.length + bs.length →
      read_exact_loop size timeout start buf (bytesPolls bs t ++ rest) t =
        some (buf ++ bs.take (size - buf.length),
          bytesPolls (bs.drop (size - buf.length)) t ++ rest, t) := by
  intro bs
  induction bs with
  | nil =>
    intro buf h
    have hfull : ¬ buf.length < size := by simp at h; omega
    rw [read_exact_loop_enough _ _ _ _ _ _ hfull]
    have h0 : size - buf.length = 0 := by omega
    simp [h0, bytesPolls]
  | cons b bs2 ih =>
    intro buf h
    by_cases hlt : buf.length < size
    · rw [show bytesPolls (b :: bs2) t ++ rest =
        ({ data := some b, now := t } : Poll) :: (bytesPolls bs2 t ++ rest)
        from rfl, read_exact_loop, if_pos hlt]
      show read_exact_loop size timeout start (buf ++ [b])
        (bytesPolls bs2 t ++ rest) t = _
      rw [ih (buf ++ [b]) (by simp at h ⊢; omega)]
      have hs : size - buf.length = (size - (buf.length + 1)) + 1 := by omega
      simp only [List.length_append, List.length_singleton, hs,
        List.take_succ_cons, List.drop_succ_cons, List.append_assoc,
        List.singleton_append]
    · rw [read_exact_loop_enough _ _ _ _ _ _ hlt]
      have h0 : size - buf.length = 0 := by omega
      simp [h0]

/-- Running the `read_exact` loop against a trace that delivers only the
bytes `bs` (too few) and then an empty poll past the deadline: the loop
returns the short buffer once it hits the empty poll. -/
theorem read_exact_loop_bytesPolls_short (size tmo start t T : Nat)
    (rest : Trace) (hT : tmo < T - start) :
    ∀ (bs buf : List Nat), buf.length + bs.length < size →
      read_exact_loop size (some tmo) start buf
        (bytesPolls bs t ++ { data := none, now := T } :: rest) t =
        some (buf ++ bs, rest, T) := by
  intro bs
  induction bs with
  | nil =>
    intro buf h
    rw [show bytesPolls [] t ++ ({ data := none, now := T } : Poll) :: rest =
      ({ data := none, now := T } : Poll) :: rest from rfl, read_exact_loop,
      if_pos (by simp at h; omega : buf.length < size)]
    show (if deadline_passed (some tmo) start T then some (buf, rest, T)
      else read_exact_loop size (some tmo) start buf rest T) = _
    rw [if_pos (by simp [deadline_passed]; exact hT)]
    simp
  | cons b bs2 ih =>
    intro buf h
    rw [show bytesPolls (b :: bs2) t ++ ({ data := none, now := T } : Poll) :: rest =
      ({ data := some b, now := t } : Poll) ::
        (bytesPolls bs2 t ++ { data := none, now := T } :: rest) from rfl,
      read_exact_loop, if_pos (by simp at h; omega : buf.length < size)]
    show read_exact_loop size (some tmo) start (buf ++ [b])
      (bytesPolls bs2 t ++ { data := none, now := T } :: rest) t = _
    rw [ih (buf ++ [b]) (by simp at h ⊢; omega)]
    simp

/-- `read_exact` on a trace delivering at least `size` bytes returns the
first `size` of them and leaves the rest. -/
theorem read_exact_bytesPolls (size : Nat) (timeout : Option Nat) (t : Nat)
    (rest : Trace) (bs : List Nat) (h : size ≤ bs.length) :
    read_exact size timeout (bytesPolls bs t ++ rest) t =
      some (bs.take size, bytesPolls (bs.drop size) t ++ rest, t) := by
  have h2 := read_exact_loop_bytesPolls size timeout t t rest bs []
    (by simpa using h)
  simpa [read_exact] using h2

/-- `read_exact` on a trace delivering only `bs` (too few bytes) followed
by an empty poll past the deadline returns the short result `bs`. -/
theorem read_exact_bytesPolls_short (size tmo t T : Nat) (rest : Trace)
    (bs : List Nat) (h : bs.length < size) (hT : tmo < T - t) :
    read_exact size (some tmo)
      (bytesPolls bs t ++ { data := none, now := T } :: rest) t =
      some (bs, rest, T) := by
  have h2 := read_exact_loop_bytesPolls_short size tmo t t T rest hT bs []
    (by simpa using h)
  simpa [read_exact] using h2

/-- `find_start` on a trace that begins with the four marker bytes finds
the marker, consuming exactly those four polls. -/
theorem find_start_marker (timeout t clk : Nat) (rest : Trace) :
    find_start timeout (bytesPolls START_SEQ t ++ rest) clk =
      some (true, rest, t) := rfl

/-- A list extended on the right by `b` ends in `b`. -/
theorem getLast?_append_singleton (w : List Nat) (b : Nat) :
    (w ++ [b]).getLast? = some b := by
  induction w with
  | nil => rfl
  | cons x xs ih =>
    cases xs with
    | nil => rfl
    | cons y ys =>
      show (x :: y :: (ys ++ [b])).getLast? = some b
      rw [List.getLast?_cons_cons]
      exact ih

/-- The window after a push always ends with the byte just pushed. -/
theorem push_window_getLast? (w : List Nat) (b : Nat) :
    (push_window w b).getLast? = some b := by
  rw [push_window]
  split
  · rename_i hlen
    cases w with
    | nil => simp [START_SEQ] at hlen
    | cons x xs =>
      rw [List.cons_append, List.drop_one, List.tail_cons]
      exact getLast?_append_singleton xs b
  · exact getLast?_append_singleton w b

/-- Pushing a byte other than `0x43` can never produce the marker window:
the window always ends with the byte just pushed, and the marker ends in
`0x43`. -/
theorem push_window_ne_marker (w : List Nat) (b : Nat) (hb : b ≠ 0x43) :
    push_window w b ≠ START_SEQ := by
  intro heq
  have hlast := push_window_getLast? w b
  rw [heq] at hlast
  simp [START_SEQ] at hlast
  exact hb hlast.symm

/-- The `find_start` loop on a trace that delivers only non-marker bytes
(none of them `0x43`) and then an empty poll past the deadline: the whole
byte prefix is consumed without a match and the empty poll triggers the
timeout return. -/
theorem find_start_loop_no_marker (timeout start T : Nat) (rest : Trace) :
    ∀ (ps : Trace) (w : List Nat),
      (∀ p ∈ ps, ∃ b, p.data = some b ∧ b ≠ 0x43) →
      timeout < T - start →
      find_start_loop timeout start w
        (ps ++ { data := none, now := T } :: rest) =
        some (false, rest, T) := by
  intro ps
  induction ps with
  | nil =>
    intro w _ hT
    rw [List.nil_append, find_start_loop]
    show (if timeout < T - start then some (false, rest, T)
      else find_start_loop timeout start w rest) = _
    rw [if_pos hT]
  | cons p ps2 ih =>
    intro w hps hT
    obtain ⟨b, hpb, hb⟩ := hps p (List.mem_cons_self _ _)
    rw [List.cons_append, find_start_loop, hpb]
    show (if push_window w b = START_SEQ
      then some (true, ps2 ++ { data := none, now := T } :: rest, p.now)
      else find_start_loop timeout start (push_window w b)
        (ps2 ++ { data := none, now := T } :: rest)) = _
    rw [if_neg (push_window_ne_marker w b hb)]
    exact ih (push_window w b)
      (fun q hq => hps q (List.mem_cons_of_mem _ hq)) hT

/-- `find_start` on a trace of non-marker bytes followed by an empty poll
past the deadline returns `False`. -/
theorem find_start_no_marker (timeout clk T : Nat) (rest ps : Trace)
    (hps : ∀ p ∈ ps, ∃ b, p.data = some b ∧ b ≠ 0x43)
    (hT : timeout < T - clk) :
    find_start timeout (ps ++ { data := none, now := T } :: rest) clk =
      some (false, rest, T) :=
  find_start_loop_no_marker timeout clk T rest ps [] hps hT

/-- A completed body loop produced exactly `n` bodies. -/
theorem decodeBodies_done_length (bytes : List Nat) :
    ∀ n offset l, decodeBodies bytes n offset = .done l → l.length = n := by
  intro n
  induction n with
  | zero =>
    intro offset l h
    rw [decodeBodies] at h
    simp only [BodiesResult.done.injEq] at h
    rw [← h]
    rfl
  | succ n ih =>
    intro offset l h
    simp only [decodeBodies] at h
    split at h
    · exact absurd h (by simp)
    · split at h
      · exact absurd h (by simp)
      · rename_i body hbody
        split at h
        · rename_i l2 hl2
          simp only [BodiesResult.done.injEq] at h
          rw [← h]
          simp [ih _ _ hl2]
        · rename_i hno
          exact absurd h (hno l)

/-- Every body produced by a completed body loop was decoded from a full
46-byte chunk of the body-byte block. -/
theorem decodeBodies_done_mem (bytes : List Nat) :
    ∀ n offset l, decodeBodies bytes n offset = .done l →
      ∀ b ∈ l, ∃ chunk, chunk.length = BODY_SIZE ∧
        (∀ x ∈ chunk, x ∈ bytes) ∧ decodeBody chunk = .ok b := by
  intro n
  induction n with
  | zero =>
    intro offset l h
    rw [decodeBodies] at h
    simp only [BodiesResult.done.injEq] at h
    rw [← h]
    simp
  | succ n ih =>
    intro offset l h
    simp only [decodeBodies] at h
    split at h
    · exact absurd h (by simp)
    · rename_i hchunk
      split at h
      · exact absurd h (by simp)
      · rename_i body hbody
        split at h
        · rename_i l2 hl2
          simp only [BodiesResult.done.injEq] at h
          intro b hb
          rw [← h] at hb
          rcases List.mem_cons.1 hb with rfl | hb2
          · refine ⟨(bytes.drop offset).take BODY_SIZE, ?_, ?_, hbody⟩
            · have hle := List.length_take_le BODY_SIZE (bytes.drop offset)
              omega
            · intro x hx
              exact (List.drop_sublist offset bytes).subset
                ((List.take_sublist BODY_SIZE (bytes.drop offset)).subset hx)
          · exact ih _ _ hl2 b hb2
        · rename_i hno
          exact absurd h (hno l)

/-- When the body-byte block really holds `n` full chunks from `offset`
on, the body loop never takes its short-chunk `return None`. -/
theorem decodeBodies_not_retNone (bytes : List Nat) :
    ∀ n offset, offset + n * BODY_SIZE ≤ bytes.length →
      decodeBodies bytes n offset ≠ .retNone := by
  intro n
  induction n with
  | zero =>
    intro offset _
    rw [decodeBodies]
    simp
  | succ n ih =>
    intro offset hlen
    simp only [decodeBodies]
    split
    · rename_i hshort
      rw [List.length_take, List.length_drop] at hshort
      simp only [BODY_SIZE] at hshort hlen
      omega
    · split
      · simp
      · split
        · simp
        · rename_i r hbody hno
          cases hr : decodeBodies bytes n (offset + BODY_SIZE) with
          | retNone =>
            exact absurd hr (ih (offset + BODY_SIZE)
              (by simp only [BODY_SIZE] at hlen ⊢; omega))
          | raised e => simp
          | done l => exact absurd hr (hno l)

/-- Inverting a successful `MircoBody(...)` construction: the resulting
record holds exactly the supplied fields and every validated constraint
holds of them. -/
theorem mircoBody_make_ok_inv (t d : Nat) (az : Int) (s rv hv : Nat)
    (rc hc : List Nat) (b : MircoBody)
    (h : MircoBody.make t d az s rv hv rc hc = .ok b) :
    b = ⟨t, d, az, s, rv, hv, rc, hc⟩ ∧ t ≤ 2 ∧ d ≤ 256 ∧
    -127 ≤ az ∧ az ≤ 128 ∧ (s = 1 ∨ s = 2) ∧
    rc.length = 20 ∧ hc.length = 20 := by
  rw [MircoBody.make] at h
  split at h
  · rename_i hcond
    simp only [Except.ok.injEq] at h
    obtain ⟨h1, h2, h3, h4, h5, h6, h7⟩ := hcond
    exact ⟨h.symm, h1, h2, h3, h4, h5, h6, h7⟩
  · exact absurd h (by simp)

/-- Inverting a successful `MircoHead(...)` construction. -/
theorem mircoHead_make_ok_inv (ss : List Nat) (dl md : Nat) (tm : List Nat)
    (nt wc : Nat) (rs : List Nat) (hd : MircoHead)
    (h : MircoHead.make ss dl md tm nt wc rs = .ok hd) :
    hd = ⟨ss, dl, md, tm, nt, wc, rs⟩ ∧ ss.length = 4 ∧ dl ≤ 0xFF ∧
    md ≤ 0xFF ∧ tm.length = 2 ∧ nt ≤ 0xFF ∧ 1 ≤ wc ∧ wc ≤ 3 ∧
    rs.length = 2 := by
  rw [MircoHead.make] at h
  split at h
  · rename_i hcond
    simp only [Except.ok.injEq] at h
    obtain ⟨h1, h2, h3, h4, h5, h6, h7, h8⟩ := hcond
    exact ⟨h.symm, h1, h2, h3, h4, h5, h6, h7, h8⟩
  · exact absurd h (by simp)

/-- Inverting a successful `MircoCheck(...)` construction. -/
theorem mircoCheck_make_ok_inv (crc zw : List Nat) (ck : MircoCheck)
    (h : MircoCheck.make crc zw = .ok ck) :
    ck = ⟨crc, zw⟩ ∧ crc.length = 2 ∧ zw.length = 2 := by
  rw [MircoCheck.make] at h
  split at h
  · rename_i hcond
    simp only [Except.ok.injEq] at h
    exact ⟨h.symm, hcond.1, hcond.2⟩
  · exact absurd h (by simp)

/-- Inverting a successful body decode: the decoded fields are exactly the
normalized record fields, and the validated constraints hold. -/
theorem decodeBody_ok_inv (chunk : List Nat) (b : MircoBody)
    (h : decodeBody chunk = .ok b) :
    b = ⟨if chunk.getD 0 0 = 0 then 1 else chunk.getD 0 0,
      chunk.getD 1 0,
      (if chunk.getD 2 0 ≤ 127 then (chunk.getD 2 0 : Int)
        else (chunk.getD 2 0 : Int) - 256),
      chunk.getD 3 0, chunk.getD 4 0, chunk.getD 5 0,
      sliceNeg chunk 44 24, sliceNeg chunk 24 4⟩ ∧
    (chunk.getD 3 0 = 1 ∨ chunk.getD 3 0 = 2) ∧
    (sliceNeg chunk 44 24).length = 20 ∧
    (sliceNeg chunk 24 4).length = 20 := by
  rw [decodeBody] at h
  obtain ⟨hb, _, _, _, _, hs, hrc, hhc⟩ :=
    mircoBody_make_ok_inv _ _ _ _ _ _ _ _ b h
  exact ⟨hb, hs, hrc, hhc⟩

/-- Bounds on a successfully decoded body, given that the chunk is a full
46-byte chunk of octets: distance is a byte, normalized azimuth lies in
`-128..127`, status is `1` or `2`, and both curves have length 20. -/
theorem decodeBody_ok_bounds (chunk : List Nat) (b : MircoBody)
    (hlen : chunk.length = BODY_SIZE) (hbytes : ∀ x ∈ chunk, x ≤ 0xFF)
    (h : decodeBody chunk = .ok b) :
    b.target_distance ≤ 255 ∧
    -128 ≤ b.target_azimuth ∧ b.target_azimuth ≤ 127 ∧
    (b.current_status = 1 ∨ b.current_status = 2) ∧
    b.respiration_curve.length = 20 ∧ b.heart_rate_curve.length = 20 := by
  obtain ⟨hb, hs, hrc, hhc⟩ := decodeBody_ok_inv chunk b h
  have hlen46 : chunk.length = 46 := hlen
  have hmem : ∀ i, i < 46 → chunk.getD i 0 ≤ 255 := by
    intro i hi
    rw [List.getD_eq_getElem chunk 0 (by omega)]
    exact hbytes _ (List.getElem_mem (by omega))
  have hd : chunk.getD 1 0 ≤ 255 := hmem 1 (by omega)
  have ha : chunk.getD 2 0 ≤ 255 := hmem 2 (by omega)
  subst hb
  refine ⟨hd, ?_, ?_, hs, hrc, hhc⟩
  · show -128 ≤ (if chunk.getD 2 0 ≤ 127 then (chunk.getD 2 0 : Int)
      else (chunk.getD 2 0 : Int) - 256)
    split <;> omega
  · show (if chunk.getD 2 0 ≤ 127 then (chunk.getD 2 0 : Int)
      else (chunk.getD 2 0 : Int) - 256) ≤ 127
    split <;> omega

/-- Inverting a successful `parse_frame_from_serial`: the returned frame
has the marker as its `start_signal`, as many bodies as `num_TLV`, a
`work_con` in `1..3` agreeing with the returned header dict, and its
bodies are the result of a completed body loop over bytes that all came
from the trace. -/
theorem parse_frame_inv (timeout : Nat) (tr : Trace) (clk : Nat)
    (F : MircoData) (I : HeaderInfo)
    (h : parse_frame_from_serial timeout tr clk = some (.frame F I)) :
    F.header.start_signal = START_SEQ ∧
    F.bodies.length = F.header.num_TLV ∧
    F.header.num_TLV = I.num_targets ∧
    F.header.work_con = I.work_status ∧
    1 ≤ F.header.work_con ∧ F.header.work_con ≤ 3 ∧
    ∃ bodies_bytes : List Nat,
      decodeBodies bodies_bytes F.header.num_TLV 0 = .done F.bodies ∧
      ∀ x ∈ bodies_bytes, ∃ p ∈ tr, p.data = some x := by
  rw [parse_frame_from_serial] at h
  split at h
  · exact absurd h (by simp)
  · exact absurd h (by simp)
  · rename_i tr1 clk1 hfs
    split at h
    · exact absurd h (by simp)
    · rename_i header_remain tr2 clk2 hre
      split at h
      · exact absurd h (by simp)
      · rename_i hlen8
        dsimp only [] at h
        split at h
        · exact absurd h (by simp)
        · rename_i bodies_bytes tr3 clk3 hrb
          split at h
          · exact absurd h (by simp)
          · rename_i hblen
            split at h
            · exact absurd h (by simp)
            · exact absurd h (by simp)
            · rename_i bodies hdb
              split at h
              · exact absurd h (by simp)
              · rename_i check_bytes tr4 clk4 hrc
                split at h
                · exact absurd h (by simp)
                · rename_i hclen
                  split at h
                  · exact absurd h (by simp)
                  · rename_i header hmh
                    split at h
                    · exact absurd h (by simp)
                    · rename_i check hmc
                      simp only [Option.some.injEq, Outcome.frame.injEq] at h
                      obtain ⟨hF, hI⟩ := h
                      obtain ⟨hhead, _, _, _, _, _, hwc1, hwc2, _⟩ :=
                        mircoHead_make_ok_inv _ _ _ _ _ _ _ _ hmh
                      subst hF
                      subst hI
                      subst hhead
                      obtain ⟨pre0, hpre0⟩ :=
                        find_start_loop_suffix timeout clk tr [] _ _ _ hfs
                      obtain ⟨_, ⟨pre1, hpre1⟩, _⟩ :=
                        read_exact_spec _ _ _ _ _ _ _ hre
                      obtain ⟨hmem2, _, _⟩ :=
                        read_exact_spec _ _ _ _ _ _ _ hrb
                      refine ⟨rfl, decodeBodies_done_length _ _ _ _ hdb,
                        rfl, rfl, hwc1, hwc2, bodies_bytes, hdb, ?_⟩
                      intro x hx
                      obtain ⟨p, hp, hpd⟩ := hmem2 x hx
                      refine ⟨p, ?_, hpd⟩
                      rw [hpre0, hpre1]
                      exact List.mem_append_right _ (List.mem_append_right _ hp)

theorem START_SEQ_length : START_SEQ.length = 4 := rfl

/-- `read_exact` over a trace that is exactly a run of delivered bytes. -/
theorem read_exact_bytesPolls_all (size : Nat) (timeout : Option Nat)
    (t : Nat) (bs : List Nat) (h : size ≤ bs.length) :
    read_exact size timeout (bytesPolls bs t) t =
      some (bs.take size, bytesPolls (bs.drop size) t, t) := by
  have h2 := read_exact_bytesPolls size timeout t [] bs h
  simpa using h2

/-- One round of the body loop (`num_TLV = 1`). -/
theorem decodeBodies_one (bytes : List Nat) :
    decodeBodies bytes 1 0 =
      (if ((bytes.drop 0).take BODY_SIZE).length < BODY_SIZE then .retNone
       else match decodeBody ((bytes.drop 0).take BODY_SIZE) with
         | .error e => .raised e
         | .ok body => .done [body]) := by
  show decodeBodies bytes (0 + 1) 0 = _
  rw [decodeBodies]
  split
  · rfl
  · split
    · rfl
    · rw [decodeBodies]

set_option maxHeartbeats 1000000 in
/-- Evaluating `parse_frame_from_serial` on the fully-delivered concrete
one-target frame: the marker is found, the header, the 46 record bytes
and the footer are read in full, and the result is entirely determined by
the record decode — a validation error escapes as `Outcome.error`, and
otherwise the frame is assembled with the demo header, the decoded body
and the verbatim footer bytes. -/
theorem demo_parse_reduces (tlvb azb statusb z1 z2 : Nat)
    (timeout t clk : Nat) :
    parse_frame_from_serial timeout
      (bytesPolls (demoBytes tlvb azb statusb z1 z2) t) clk =
      match decodeBody (demoRecord tlvb azb statusb) with
      | .ok body => some (.frame (demoFrame body z1 z2) demoInfo)
      | .error e => some (.error e) := by
  cases hX : decodeBody (demoRecord tlvb azb statusb) with
  | ok body =>
    simp only [demoRecord] at hX
    simp [parse_frame_from_serial, demoBytes, demoHeaderBytes, demoRecord,
      List.append_assoc, bytesPolls_append, find_start_marker,
      read_exact_bytesPolls_all, BODY_SIZE, hX, decodeBodies_one,
      MircoHead.make, MircoCheck.make, demoHead, demoInfo, demoFrame,
      START_SEQ_length]
  | error e =>
    simp only [demoRecord] at hX
    simp [parse_frame_from_serial, demoBytes, demoHeaderBytes, demoRecord,
      List.append_assoc, bytesPolls_append, find_start_marker,
      read_exact_bytesPolls_all, BODY_SIZE, hX, decodeBodies_one,
      MircoHead.make, MircoCheck.make, demoHead, demoInfo, demoFrame,
      START_SEQ_length]

theorem byteTrace_byte (tr : Trace) (h : ByteTrace tr) (p : Poll)
    (hp : p ∈ tr) (x : Nat) (hpd : p.data = some x) : x ≤ 0xFF := by
  have h2 := h p hp
  rw [hpd] at h2
  simpa using h2

/-- Decoding the demo record succeeds whenever the normalized tlv value is
in range and the azimuth byte is an octet other than 128, and produces
exactly `demoBody`. -/
theorem decodeBody_demoRecord_ok (tlvb azb : Nat)
    (htlv : (if tlvb = 0 then 1 else tlvb) ≤ 2)
    (hazb : azb ≤ 255) (h128 : azb ≠ 128) :
    decodeBody (demoRecord tlvb azb 1) = .ok (demoBody tlvb azb) := by
  simp [decodeBody, demoRecord, MircoBody.make, sliceNeg, demoBody]
  refine ⟨htlv, ?_, ?_⟩ <;> split <;> omega

/-- Decoding the demo record raises a validation error when the tlv byte
is 3 or more (the normalized value is out of the `0..2` range). -/
theorem decodeBody_demoRecord_tlv_err (tlvb : Nat) (h3 : 3 ≤ tlvb) :
    decodeBody (demoRecord tlvb 200 1) = .error .validationError := by
  simp [decodeBody, demoRecord, MircoBody.make, sliceNeg]
  split <;> omega

/-! ### Claims -/

set_option maxRecDepth 8000 in
/-- C1 (counterexample): on the spec's concrete input stream the decode
succeeds and matches the claim in every field except the respiration
curve: the decoded respiration curve is record bytes 2..21, i.e.
`[200, 1, 70, 75]` followed by sixteen zero bytes — not the twenty zero
bytes the claim asserts. -/
theorem C1_counterexample :
    parse_frame_from_serial 1 (bytesPolls (demoBytes 0 200 1 0xEE 0xEE) 0) 0 =
      some (.frame (demoFrame c1Body 0xEE 0xEE) demoInfo) ∧
    c1Body.respiration_curve = [200, 1, 70, 75] ++ List.replicate 16 0 ∧
    c1Body.respiration_curve ≠ List.replicate 20 0 := by
  exact ⟨by decide, by decide, by decide⟩

set_option maxRecDepth 8000 in
/-- C1 (amended): decoding the concrete stream
`53 59 54 43 2E 01 00 00 01 01 00 00` + record
`00 0A C8 01 46 4B` + forty zero bytes + `AB CD EE EE` yields exactly the
frame with `mode = 1`, `num_TLV = 1`, `work_con = 1`, one body
`{tlv 1, distance 10, azimuth -56, status 1, resp 70, hr 75}` whose
respiration curve is `[200, 1, 70, 75]` ++ sixteen zeros and whose
heart-rate curve is twenty zeros, checksum `AB CD` and terminator
`EE EE`, together with the parsed header dict. -/
theorem C1_concrete_decode :
    parse_frame_from_serial 1 (bytesPolls (demoBytes 0 200 1 0xEE 0xEE) 0) 0 =
      some (.frame (demoFrame c1Body 0xEE 0xEE) demoInfo) := by decide

set_option maxRecDepth 8000 in
/-- C2 (counterexample): for the concrete record
`00 0A C8 01 46 4B` + forty zeros, the decoded respiration curve is not
bytes 6..25 of the record (those are all zero); it is
`[200, 1, 70, 75]` ++ sixteen zeros, i.e. record bytes 2..21. -/
theorem C2_counterexample :
    decodeBody (demoRecord 0 200 1) = .ok c1Body ∧
    ((demoRecord 0 200 1).drop 6).take 20 = List.replicate 20 0 ∧
    c1Body.respiration_curve ≠ ((demoRecord 0 200 1).drop 6).take 20 := by
  exact ⟨by decide, by decide, by decide⟩

/-- C2 (amended): for every successfully decoded 46-byte record, the
respiration curve is bytes 2..21 of the record and the heart-rate curve
is bytes 22..41 — `chunk[-44:-24]` and `chunk[-24:-4]` of the 46-byte
chunk — so the curves overlap the azimuth, status, respiration and
heart-rate scalar bytes instead of following the six scalars. -/
theorem C2_curve_offsets (chunk : List Nat) (b : MircoBody)
    (hlen : chunk.length = BODY_SIZE) (h : decodeBody chunk = .ok b) :
    b.respiration_curve = (chunk.drop 2).take 20 ∧
    b.heart_rate_curve = (chunk.drop 22).take 20 := by
  obtain ⟨hb, _, _, _⟩ := decodeBody_ok_inv chunk b h
  subst hb
  constructor
  · show sliceNeg chunk 44 24 = _
    rw [sliceNeg, hlen]
    norm_num [BODY_SIZE]
  · show sliceNeg chunk 24 4 = _
    rw [sliceNeg, hlen]
    norm_num [BODY_SIZE]

set_option maxRecDepth 8000 in
/-- C2 (witness): the amended curve offsets evaluated on the concrete
record. -/
theorem C2_curve_offsets_witness :
    (demoRecord 0 200 1).length = BODY_SIZE ∧
    c1Body.respiration_curve = ((demoRecord 0 200 1).drop 2).take 20 ∧
    c1Body.heart_rate_curve = ((demoRecord 0 200 1).drop 22).take 20 :=
  ⟨by decide, (C2_curve_offsets _ c1Body (by decide) (by decide)).1,
    (C2_curve_offsets _ c1Body (by decide) (by decide)).2⟩

set_option maxRecDepth 8000 in
/-- C3 (counterexample): an otherwise valid frame whose azimuth wire byte
is `128` is not decoded successfully: the normalized value `-128` is
outside the model's `-127..128` azimuth range and the construction
raises, so the decode produces a validation error, not a frame. -/
theorem C3_counterexample :
    parse_frame_from_serial 1 (bytesPolls (demoBytes 0 128 1 0xEE 0xEE) 0) 0 =
      some (.error .validationError) := by decide

/-- C3 (amended): for every azimuth wire byte `b ≤ 255` other than `128`,
the frame decodes successfully and the azimuth is reinterpreted as
`b` when `b ≤ 127` and `b - 256` otherwise; wire byte `128` (alone) is
rejected, because `models.py` bounds the azimuth at `ge = -127`. -/
theorem C3_azimuth_normalization (b : Nat) (hb : b ≤ 255) (h128 : b ≠ 128) :
    parse_frame_from_serial 1 (bytesPolls (demoBytes 0 b 1 0xEE 0xEE) 0) 0 =
      some (.frame (demoFrame (demoBody 0 b) 0xEE 0xEE) demoInfo) ∧
    (demoBody 0 b).target_azimuth =
      (if b ≤ 127 then (b : Int) else (b : Int) - 256) := by
  refine ⟨?_, rfl⟩
  rw [demo_parse_reduces, decodeBody_demoRecord_ok 0 b (by norm_num) hb h128]

set_option maxRecDepth 8000 in
/-- C3 (witness): wire byte 200 decodes successfully to azimuth -56. -/
theorem C3_azimuth_normalization_witness :
    (200 : Nat) ≤ 255 ∧ (200 : Nat) ≠ 128 ∧
    (parse_frame_from_serial 1 (bytesPolls (demoBytes 0 200 1 0xEE 0xEE) 0) 0 =
      some (.frame (demoFrame (demoBody 0 200) 0xEE 0xEE) demoInfo) ∧
     (demoBody 0 200).target_azimuth =
       (if (200 : Nat) ≤ 127 then ((200 : Nat) : Int)
        else ((200 : Nat) : Int) - 256)) ∧
    (demoBody 0 200).target_azimuth = -56 :=
  ⟨by decide, by decide, C3_azimuth_normalization 200 (by decide) (by decide),
    by decide⟩

set_option maxRecDepth 8000 in
/-- C4 (code evaluated at the failing input): a stream whose record has
`current_status = 3` makes `MircoBody(...)` raise a pydantic
`ValidationError` that escapes `parse_frame_from_serial` — the outcome is
the raised-exception value, not the `None` return its own docstring and
`Optional[MircoData]` annotation promise. -/
theorem C4_status_raises :
    parse_frame_from_serial 1 (bytesPolls (demoBytes 0 200 3 0xEE 0xEE) 0) 0 =
      some (.error .validationError) ∧
    (Outcome.error .validationError ≠ Outcome.noneRet) := by
  exact ⟨by decide, by decide⟩

set_option maxRecDepth 8000 in
/-- C5 (counterexample): a zero-target frame delivered entirely at clock
1000 — far past the deadline `clk 0 + timeout 1` — still decodes to a
full frame: fewer than `8 + 0*46 + 4` bytes followed the marker before
the deadline (none did), yet the result is a frame, not a truncation
failure, because the reads check their deadline only on empty polls. -/
theorem C5_counterexample :
    parse_frame_from_serial 1 (bytesPolls emptyFrameBytes 1000) 0 =
      some (.frame emptyFrame emptyInfo) ∧ (0 + 1 : Nat) < 1000 := by
  exact ⟨by decide, by decide⟩

set_option maxRecDepth 8000 in
/-- C6 (counterexample): every poll of this stream happens at clock 10,
after the deadline `clk 0 + timeout 1`, and no marker occurs before the
deadline; yet `find_start` does not time out — it finds the late marker —
and the decode returns a full frame instead of a timeout failure. -/
theorem C6_counterexample :
    find_start 1 (bytesPolls (demoBytes 0 200 1 0xEE 0xEE) 10) 0 =
      some (true, (bytesPolls (demoBytes 0 200 1 0xEE 0xEE) 10).drop 4, 10) ∧
    parse_frame_from_serial 1 (bytesPolls (demoBytes 0 200 1 0xEE 0xEE) 10) 0 =
      some (.frame (demoFrame c1Body 0xEE 0xEE) demoInfo) ∧
    (0 + 1 : Nat) < 10 := by
  exact ⟨by decide, by decide, by decide⟩

/-- C6 (amended): `find_start` checks its deadline only when a poll
delivers no byte.  For every stream that delivers non-marker bytes (none
equal to the marker's final byte `0x43`) and then returns an empty poll
past the deadline, the search terminates with failure at that empty poll
and the decode returns `None`. -/
theorem C6_deadline_only_on_empty (ps : Trace) (timeout clk T : Nat)
    (rest : Trace)
    (hps : ∀ p ∈ ps, ∃ b, p.data = some b ∧ b ≠ 0x43)
    (hT : timeout < T - clk) :
    find_start timeout (ps ++ { data := none, now := T } :: rest) clk =
      some (false, rest, T) ∧
    parse_frame_from_serial timeout
      (ps ++ { data := none, now := T } :: rest) clk = some .noneRet := by
  have h1 := find_start_no_marker timeout clk T rest ps hps hT
  refine ⟨h1, ?_⟩
  rw [parse_frame_from_serial, h1]

/-- C6 (witness): one non-marker byte then a stalled poll past the
deadline. -/
theorem C6_deadline_only_on_empty_witness :
    find_start 1 ([({ data := some 0, now := 0 } : Poll)] ++
      { data := none, now := 5 } :: []) 0 = some (false, [], 5) ∧
    parse_frame_from_serial 1 ([({ data := some 0, now := 0 } : Poll)] ++
      { data := none, now := 5 } :: []) 0 = some .noneRet :=
  C6_deadline_only_on_empty [{ data := some 0, now := 0 }] 1 0 5 []
    (by
      intro p hp
      rw [List.mem_singleton] at hp
      subst hp
      exact ⟨0, rfl, by decide⟩)
    (by decide)

set_option maxRecDepth 8000 in
/-- C7: tlv normalization — wire byte 0 decodes to tlv 1, wire byte 2 to
tlv 2 (frames decoded successfully), and any wire byte of 3 or more makes
the decode produce a validation error instead of a frame. -/
theorem C7_tlv_normalization :
    (parse_frame_from_serial 1 (bytesPolls (demoBytes 0 200 1 0xEE 0xEE) 0) 0 =
       some (.frame (demoFrame (demoBody 0 200) 0xEE 0xEE) demoInfo) ∧
     (demoBody 0 200).tlv_signal = 1) ∧
    (parse_frame_from_serial 1 (bytesPolls (demoBytes 2 200 1 0xEE 0xEE) 0) 0 =
       some (.frame (demoFrame (demoBody 2 200) 0xEE 0xEE) demoInfo) ∧
     (demoBody 2 200).tlv_signal = 2) ∧
    ∀ tw : Nat, 3 ≤ tw →
      parse_frame_from_serial 1 (bytesPolls (demoBytes tw 200 1 0xEE 0xEE) 0) 0 =
        some (.error .validationError) := by
  refine ⟨⟨by decide, by decide⟩, ⟨by decide, by decide⟩, ?_⟩
  intro tw htw
  rw [demo_parse_reduces, decodeBody_demoRecord_tlv_err tw htw]

set_option maxRecDepth 8000 in
/-- C7 (witness): wire tlv byte 3 produces the validation error. -/
theorem C7_tlv_normalization_witness :
    (3 : Nat) ≤ 3 ∧
    parse_frame_from_serial 1 (bytesPolls (demoBytes 3 200 1 0xEE 0xEE) 0) 0 =
      some (.error .validationError) :=
  ⟨by decide, C7_tlv_normalization.2.2 3 (by decide)⟩

set_option maxRecDepth 8000 in
/-- C8 (counterexample): a frame with terminator `FF FF` is assembled and
returned exactly like the valid-terminator frame — same header, bodies
and checksum — with the raw terminator bytes in `check.zw`; the returned
value (a `MircoData` and the header dict) has no `checksum_invalid` flag
of any kind. -/
theorem C8_counterexample :
    parse_frame_from_serial 1 (bytesPolls (demoBytes 0 200 1 0xFF 0xFF) 0) 0 =
      some (.frame (demoFrame c1Body 0xFF 0xFF) demoInfo) ∧
    (demoFrame c1Body 0xFF 0xFF).check.zw = [0xFF, 0xFF] ∧
    (demoFrame c1Body 0xFF 0xFF).header = (demoFrame c1Body 0xEE 0xEE).header ∧
    (demoFrame c1Body 0xFF 0xFF).bodies = (demoFrame c1Body 0xEE 0xEE).bodies ∧
    (demoFrame c1Body 0xFF 0xFF).check.crc =
      (demoFrame c1Body 0xEE 0xEE).check.crc := by
  exact ⟨by decide, by decide, by decide, by decide, by decide⟩

/-- C8 (amended): for any two terminator bytes, the otherwise-valid frame
is still assembled and returned, with the terminator bytes passed through
verbatim in `check.zw`; no mismatch flag is computed — the caller must
compare `zw` with `EE EE` itself. -/
theorem C8_terminator_passthrough (z1 z2 : Nat) :
    parse_frame_from_serial 1 (bytesPolls (demoBytes 0 200 1 z1 z2) 0) 0 =
      some (.frame (demoFrame c1Body z1 z2) demoInfo) := by
  have hd : decodeBody (demoRecord 0 200 1) = .ok c1Body := by decide
  rw [demo_parse_reduces, hd]

/-- C9: every successfully decoded frame (from a trace of octets)
satisfies the claimed invariants: `start_signal` is the marker, the
number of bodies equals `num_TLV` (which is the `num_targets` the header
dict reports), and every body has a byte-sized distance, a normalized
azimuth in `-128..127`, a status of 1 or 2, and two curves of length
exactly 20. -/
theorem C9_frame_invariants (timeout : Nat) (tr : Trace) (clk : Nat)
    (F : MircoData) (I : HeaderInfo) (hbt : ByteTrace tr)
    (h : parse_frame_from_serial timeout tr clk = some (.frame F I)) :
    F.header.start_signal = START_SEQ ∧
    F.bodies.length = F.header.num_TLV ∧
    F.header.num_TLV = I.num_targets ∧
    ∀ b ∈ F.bodies,
      b.target_distance ≤ 255 ∧
      -128 ≤ b.target_azimuth ∧ b.target_azimuth ≤ 127 ∧
      (b.current_status = 1 ∨ b.current_status = 2) ∧
      b.respiration_curve.length = 20 ∧ b.heart_rate_curve.length = 20 := by
  obtain ⟨hss, hlen, hnt, _, _, _, bb, hdb, hmem⟩ :=
    parse_frame_inv timeout tr clk F I h
  refine ⟨hss, hlen, hnt, ?_⟩
  intro b hb
  obtain ⟨chunk, hclen, hcmem, hcok⟩ :=
    decodeBodies_done_mem bb _ 0 _ hdb b hb
  refine decodeBody_ok_bounds chunk b hclen ?_ hcok
  intro x hx
  obtain ⟨p, hp, hpd⟩ := hmem x (hcmem x hx)
  exact byteTrace_byte tr hbt p hp x hpd

set_option maxRecDepth 8000 in
/-- C9 (witness): the invariants instantiated on the concrete one-target
decode. -/
theorem C9_frame_invariants_witness :
    (demoFrame c1Body 0xEE 0xEE).header.start_signal = START_SEQ ∧
    (demoFrame c1Body 0xEE 0xEE).bodies.length =
      (demoFrame c1Body 0xEE 0xEE).header.num_TLV ∧
    (demoFrame c1Body 0xEE 0xEE).header.num_TLV = demoInfo.num_targets ∧
    ∀ b ∈ (demoFrame c1Body 0xEE 0xEE).bodies,
      b.target_distance ≤ 255 ∧
      -128 ≤ b.target_azimuth ∧ b.target_azimuth ≤ 127 ∧
      (b.current_status = 1 ∨ b.current_status = 2) ∧
      b.respiration_curve.length = 20 ∧ b.heart_rate_curve.length = 20 :=
  C9_frame_invariants 1 (bytesPolls (demoBytes 0 200 1 0xEE 0xEE) 0) 0
    (demoFrame c1Body 0xEE 0xEE) demoInfo (by decide) (by decide)

set_option maxRecDepth 8000 in
/-- C10: a frame is only ever returned with `work_con` in `1..3` (the
value is the header's work-status byte, also reported in the header
dict), and the concrete stream whose complete 8-byte header block has
work-status byte `0` ends in a raised validation error — header
construction itself fails the decode even though all 8 header bytes (and
the whole frame) were supplied. -/
theorem C10_work_status :
    (∀ (timeout : Nat) (tr : Trace) (clk : Nat) (F : MircoData)
        (I : HeaderInfo),
      parse_frame_from_serial timeout tr clk = some (.frame F I) →
      1 ≤ F.header.work_con ∧ F.header.work_con ≤ 3 ∧
      F.header.work_con = I.work_status) ∧
    parse_frame_from_serial 1 (bytesPolls (workConBytes 0) 0) 0 =
      some (.error .validationError) := by
  constructor
  · intro timeout tr clk F I h
    obtain ⟨_, _, _, hwc, h1, h2, _⟩ := parse_frame_inv timeout tr clk F I h
    exact ⟨h1, h2, hwc⟩
  · decide

set_option maxRecDepth 8000 in
/-- C10 (witness): the work-status bound instantiated on the concrete
one-target decode. -/
theorem C10_work_status_witness :
    1 ≤ (demoFrame c1Body 0xEE 0xEE).header.work_con ∧
    (demoFrame c1Body 0xEE 0xEE).header.work_con ≤ 3 ∧
    (demoFrame c1Body 0xEE 0xEE).header.work_con = demoInfo.work_status :=
  C10_work_status.1 1 (bytesPolls (demoBytes 0 200 1 0xEE 0xEE) 0) 0
    (demoFrame c1Body 0xEE 0xEE) demoInfo (by decide)

/-- C5 (amended): truncation semantics of the decode.  For every stream
that delivers the marker, then some bytes `ds`, and then stalls (an empty
poll) after the deadline: when fewer than `8 + k*46 + 4` bytes were
delivered in total (`k` the `num_TLV` byte) the decode returns `None` —
each of the header, bodies and footer reads fails the whole decode when
it comes back short, and no partial frame or body list is exposed
(provided the bodies, when fully delivered, validate: a status/tlv
violation would raise before the footer read).  The deadline itself,
however, only takes effect at an empty poll: bytes that keep arriving
after it are still consumed (see the counterexample). -/
theorem C5_truncation (ds : List Nat) (timeout t T clk : Nat)
    (hT : timeout < T - t)
    (hshort : ds.length < 12 + ds.getD 4 0 * 46)
    (hbodies : 8 + ds.getD 4 0 * 46 ≤ ds.length →
      ∀ e, decodeBodies ((ds.drop 8).take (ds.getD 4 0 * 46))
        (ds.getD 4 0) 0 ≠ .raised e) :
    parse_frame_from_serial timeout
      (bytesPolls (START_SEQ ++ ds) t ++ [{ data := none, now := T }]) clk =
      some .noneRet := by
  rw [parse_frame_from_serial, bytesPolls_append, List.append_assoc]
  simp only [find_start_marker, show (1 + 1 + 2 + 1 + 1 + 2 : Nat) = 8 from rfl,
    show BODY_SIZE = 46 from rfl]
  by_cases h8 : ds.length < 8
  · have hr := read_exact_bytesPolls_short 8 timeout t T [] ds (by omega) hT
    simp only [hr, h8, if_pos, List.length_nil]
  · have hr := read_exact_bytesPolls 8 (some timeout) t
      [{ data := none, now := T }] ds (by omega)
    simp only [hr]
    have hg4 : (List.take 8 ds).getD 4 0 = ds.getD 4 0 := by
      rw [List.getD_eq_getElem _ _ (by rw [List.length_take]; omega),
        List.getD_eq_getElem _ _ (by omega)]
      exact List.getElem_take ds
    have hlt8 : ¬ (List.take 8 ds).length < 8 := by
      rw [List.length_take]; omega
    rw [if_neg hlt8]
    simp only [hg4]
    by_cases hB : ds.length < 8 + ds.getD 4 0 * 46
    · have hr2 := read_exact_bytesPolls_short (ds.getD 4 0 * 46) timeout t T
        [] (ds.drop 8) (by rw [List.length_drop]; omega) hT
      simp only [hr2]
      rw [if_pos (by rw [List.length_drop]; omega)]
    · have hr2 := read_exact_bytesPolls (ds.getD 4 0 * 46) (some timeout) t
        [{ data := none, now := T }] (ds.drop 8) (by rw [List.length_drop]; omega)
      simp only [hr2]
      have hlen2 : ((ds.drop 8).take (ds.getD 4 0 * 46)).length =
          ds.getD 4 0 * 46 := by
        rw [List.length_take, List.length_drop]; omega
      rw [if_neg (by omega)]
      cases hdb : decodeBodies ((ds.drop 8).take (ds.getD 4 0 * 46))
          (ds.getD 4 0) 0 with
      | retNone =>
        exact absurd hdb (decodeBodies_not_retNone _ _ _
          (by rw [show BODY_SIZE = 46 from rfl, hlen2]; omega))
      | raised e => exact absurd hdb (hbodies (by omega) e)
      | done l =>
        simp only [hdb, List.drop_drop]
        have hr3 := read_exact_bytesPolls_short 4 timeout t T []
          (ds.drop (8 + ds.getD 4 0 * 46)) (by rw [List.length_drop]; omega) hT
        simp only [hr3]
        rw [if_pos (by rw [List.length_drop]; omega)]

set_option maxRecDepth 8000 in
/-- C5 (witness): a 9-byte delivery (`k = 0`, footer short) then a stall
past the deadline returns `None`. -/
theorem C5_truncation_witness :
    (1 : Nat) < 5 - 0 ∧
    ([0, 1, 0, 0, 0, 1, 0, 0, 0xAB] : List Nat).length <
      12 + ([0, 1, 0, 0, 0, 1, 0, 0, 0xAB] : List Nat).getD 4 0 * 46 ∧
    parse_frame_from_serial 1
      (bytesPolls (START_SEQ ++ [0, 1, 0, 0, 0, 1, 0, 0, 0xAB]) 0 ++
        [{ data := none, now := 5 }]) 0 = some .noneRet :=
  ⟨by decide, by decide,
    C5_truncation [0, 1, 0, 0, 0, 1, 0, 0, 0xAB] 1 0 5 0 (by decide)
      (by decide) (fun _ e hc => by cases e; revert hc; decide)⟩
